import Mathlib

/-!
Verification of the LayerEdge wallet-automation program (`src/main.js`).

The development shallowly embeds the program's core:

* `RequestHandler.makeRequest` — the retrying HTTP client, observed through
  the value it returns, the waits it performs between attempts (in
  milliseconds, as exact rationals) and the number of attempts it issues;
* the `LayerEdgeConnection` session operations, over a small model of
  JavaScript values (`JSVal`) for response bodies, with thrown exceptions
  modelled as `Except.error`;
* `processWallet` / `processWalletsInBatches` — the per-wallet workflow and
  the batch orchestrator, over an oracle (`SessionEnv`) giving each remote
  step's result (a returned value, or a thrown exception).
-/

/-- Model of a JavaScript value as it appears in a parsed response body.
Numbers are modelled as integers (the program only inspects integral point
counts); `NaN` and object reference identity are not modelled — the source
only compares response fields against string literals. -/
inductive JSVal where
  | jundefined : JSVal
  | jnull : JSVal
  | jbool : Bool → JSVal
  | jnum : Int → JSVal
  | jstr : String → JSVal
  | jobj : List (String × JSVal) → JSVal

/-- Property lookup in an object's field list. The object literals the
program inspects have distinct keys, so lookup order is immaterial. -/
def lookupField : List (String × JSVal) → String → JSVal
  | [], _ => .jundefined
  | (k, v) :: rest, key => if k = key then v else lookupField rest key

/-- JavaScript property access `v.k`: throws a TypeError when `v` is
`undefined` or `null`; yields the field (or `undefined`) on an object;
yields `undefined` on the other primitives for the keys the program reads. -/
def getProp : JSVal → String → Except Unit JSVal
  | .jundefined, _ => .error ()
  | .jnull, _ => .error ()
  | .jobj fs, k => .ok (lookupField fs k)
  | _, _ => .ok .jundefined

/-- Optional chaining `v?.k`: like `getProp` but never throws. -/
def optChain : JSVal → String → JSVal
  | .jundefined, _ => .jundefined
  | .jnull, _ => .jundefined
  | .jobj fs, k => lookupField fs k
  | _, _ => .jundefined

/-- JavaScript truthiness of a value. -/
def truthy : JSVal → Bool
  | .jundefined => false
  | .jnull => false
  | .jbool b => b
  | .jnum n => decide (n ≠ 0)
  | .jstr s => decide (s ≠ "")
  | .jobj _ => true

/-- Strict equality `===`, adequate for the comparisons the program makes
(response fields against primitive literals); values of distinct shapes and
distinct objects compare unequal. -/
def strictEq : JSVal → JSVal → Bool
  | .jundefined, .jundefined => true
  | .jnull, .jnull => true
  | .jbool a, .jbool b => a == b
  | .jnum a, .jnum b => a == b
  | .jstr a, .jstr b => a == b
  | _, _ => false

/-- An HTTP response as axios presents it to the caller: a numeric status
and a parsed body. -/
structure Response where
  status : Nat
  data : JSVal

/-- What one `await axios(config)` does on a given attempt: return a
response, or throw an error that optionally carries a response status
(`error.response?.status` is `undefined` for network errors and timeouts,
modelled as `none`). -/
inductive AttemptResult where
  | ok : Response → AttemptResult
  | err : Option Nat → AttemptResult

/-- Observable behaviour of one `RequestHandler.makeRequest` call: the value
returned, the waits performed between attempts (in milliseconds), and how
many attempts were issued. -/
structure ReqOutcome where
  result : Option Response
  delays : List ℚ
  attemptsMade : Nat

namespace RequestHandler

/-- The retry loop of `RequestHandler.makeRequest` (src/main.js 107–140),
resumed at attempt index `i` with `fuel` attempts remaining
(`fuel = retries - i`, so `isLastRetry`, i.e. `i === retries - 1`, is
`fuel = 1`); `attempts` tells what `await axios(config)` does on each
attempt.  A status-500 error waits `backoffMs * 1.5 ^ i` milliseconds
(the source computes `waitTime` in ms and calls `delay(waitTime/1000)`,
where `delay` multiplies by 1000 again) unless this was the last attempt,
which breaks out and returns null with no wait; any other error waits the
fixed `delay(2)` = 2000 ms unless this was the last attempt, which returns
null immediately. -/
def makeRequestAux (attempts : Nat → AttemptResult) (backoffMs : ℚ) :
    Nat → Nat → ReqOutcome
  | 0, _ => ⟨none, [], 0⟩
  | fuel + 1, i =>
    match attempts i with
    | .ok r => ⟨some r, [], 1⟩
    | .err status =>
      if status = some 500 then
        if fuel = 0 then ⟨none, [], 1⟩
        else
          let rest := makeRequestAux attempts backoffMs fuel (i + 1)
          ⟨rest.result, backoffMs * (3 / 2) ^ i :: rest.delays, rest.attemptsMade + 1⟩
      else
        if fuel = 0 then ⟨none, [], 1⟩
        else
          let rest := makeRequestAux attempts backoffMs fuel (i + 1)
          ⟨rest.result, (2000 : ℚ) :: rest.delays, rest.attemptsMade + 1⟩

/-- Default retry budget of `RequestHandler.makeRequest` (`retries = 3`). -/
def defaultRetries : Nat := 3

/-- Default backoff base of `RequestHandler.makeRequest` (`backoffMs = 2000`). -/
def defaultBackoffMs : ℚ := 2000

/-- `RequestHandler.makeRequest(config, retries, backoffMs)`: run the retry
loop from attempt 0. -/
def makeRequest (attempts : Nat → AttemptResult) (retries : Nat) (backoffMs : ℚ) :
    ReqOutcome :=
  makeRequestAux attempts backoffMs retries 0

end RequestHandler

/-- `validateStatus` from the session's axios config (src/main.js 185–187):
statuses below 500 are ordinary responses, not thrown errors. -/
def validateStatus (status : Nat) : Bool := decide (status < 500)

/-- The raw outcome of one network attempt, before axios classifies it. -/
inductive RawResult where
  | got : Response → RawResult
  | netErr : RawResult

/-- How axios, configured with the session's `validateStatus`, classifies a
raw attempt: a response passing `validateStatus` is returned, any other
response is thrown carrying its status; a network error or timeout is
thrown without a status. -/
def axiosClassify : RawResult → AttemptResult
  | .got r => if validateStatus r.status then .ok r else .err (some r.status)
  | .netErr => .err none

/-- One account session: the fields of `LayerEdgeConnection` that the
verified claims observe (headers, the proxy agent and the wallet object are
opaque to them). -/
structure LayerEdgeConnection where
  proxy : Option String
  refCode : String
  retryCount : Nat

namespace LayerEdgeConnection

/-- The `LayerEdgeConnection` constructor: stores the proxy and referral
code and fixes `this.retryCount = 2`. -/
def construct (proxy : Option String) (refCode : String) : LayerEdgeConnection :=
  ⟨proxy, refCode, 2⟩

/-- `LayerEdgeConnection.makeRequest` forwards to
`RequestHandler.makeRequest` passing the session's `retryCount` as the
budget; the backoff base stays at the handler's default. -/
def makeRequest (c : LayerEdgeConnection) (attempts : Nat → AttemptResult) :
    ReqOutcome :=
  RequestHandler.makeRequest attempts c.retryCount RequestHandler.defaultBackoffMs

/-- `isWalletRegistered` (src/main.js 208–222): status 200 → `true`; status
404 whose body `message` is `user not found` → `false`; anything else →
`null`.  The 404 branch reads `response.data.message` without a guard. -/
def isWalletRegistered (resp : Option Response) : Except Unit (Option Bool) :=
  match resp with
  | none => .ok none
  | some r =>
    if r.status = 200 then .ok (some true)
    else if r.status = 404 then
      match getProp r.data "message" with
      | .error e => .error e
      | .ok m =>
        if strictEq m (.jstr "user not found") then .ok (some false) else .ok none
    else .ok none

/-- `checkInvite` (src/main.js 224–238): `true` iff
`response.data?.data?.valid` is truthy. -/
def checkInvite (resp : Option Response) : Except Unit Bool :=
  match resp with
  | none => .ok false
  | some r => .ok (truthy (optChain (optChain r.data "data") "valid"))

/-- `registerWallet` (src/main.js 240–254): `true` iff a response arrived
with status 200. -/
def registerWallet (resp : Option Response) : Except Unit Bool :=
  match resp with
  | none => .ok false
  | some r => .ok (decide (r.status = 200))

/-- `dailyCheckIn` (src/main.js 256–280; message signing is an external
capability, only the response interpretation is modelled): `true` iff a
response arrived with a truthy body. -/
def dailyCheckIn (resp : Option Response) : Except Unit Bool :=
  match resp with
  | none => .ok false
  | some r => .ok (truthy r.data)

/-- `checkNodeStatus` (src/main.js 282–295): with a present response whose
body is truthy, reads `response.data.data.startTimestamp` — note, without
optional chaining — and reports running iff it is not strictly `null`. -/
def checkNodeStatus (resp : Option Response) : Except Unit Bool :=
  match resp with
  | none => .ok false
  | some r =>
    if truthy r.data then
      match getProp r.data "data" with
      | .error e => .error e
      | .ok d =>
        match getProp d "startTimestamp" with
        | .error e => .error e
        | .ok st => .ok (!strictEq st .jnull)
    else .ok false

/-- `connectNode` (src/main.js 297–327): `true` iff the body is truthy and
its `message` field strictly equals the literal success marker. -/
def connectNode (resp : Option Response) : Except Unit Bool :=
  match resp with
  | none => .ok false
  | some r =>
    if truthy r.data then
      match getProp r.data "message" with
      | .error e => .error e
      | .ok m => .ok (strictEq m (.jstr "node action executed successfully"))
    else .ok false

/-- `stopNode` (src/main.js 329–352): `true` iff a response arrived with a
truthy body. -/
def stopNode (resp : Option Response) : Except Unit Bool :=
  match resp with
  | none => .ok false
  | some r => .ok (truthy r.data)

/-- `checkNodePoints` (src/main.js 354–368): with a truthy body, returns
`response.data.data?.nodePoints || 0`; otherwise returns `null`. -/
def checkNodePoints (resp : Option Response) : Except Unit (Option JSVal) :=
  match resp with
  | none => .ok none
  | some r =>
    if truthy r.data then
      match getProp r.data "data" with
      | .error e => .error e
      | .ok d =>
        let np := optChain d "nodePoints"
        .ok (some (if truthy np then np else .jnum 0))
    else .ok none

end LayerEdgeConnection

/-- The remote operations a wallet's workflow can invoke, used to record
call traces. -/
inductive Call where
  | isWalletRegistered : Call
  | checkInvite : Call
  | registerWallet : Call
  | dailyCheckIn : Call
  | checkNodeStatus : Call
  | stopNode : Call
  | connectNode : Call
  | checkNodePoints : Call
deriving DecidableEq

/-- Oracle for one wallet's run: what each session operation would produce
if called — a returned value, or `Except.error` when the call would end in
a thrown exception (e.g. a TypeError inside the operation, or a rejected
promise). -/
structure SessionEnv where
  isWalletRegistered : Except Unit (Option Bool)
  checkInvite : Except Unit Bool
  registerWallet : Except Unit Bool
  dailyCheckIn : Except Unit Bool
  checkNodeStatus : Except Unit Bool
  stopNode : Except Unit Bool
  connectNode : Except Unit Bool
  checkNodePoints : Except Unit (Option JSVal)

/-- Terminal classification of one wallet's run in `processWallet`:
completion (reaches `stats.success++`, with the fetched point value written
to the record), an early business-rule abort (the bare `return`s at the
invalid-invite and failed-registration checks, which reach neither counter
update), or a caught exception (reaches `stats.failed++`). -/
inductive WalletOutcome where
  | completed : Option JSVal → WalletOutcome
  | abortedInvite : WalletOutcome
  | abortedRegister : WalletOutcome
  | failed : WalletOutcome

namespace WalletOutcome

/-- Contribution of an outcome to `stats.success`. -/
def succDelta : WalletOutcome → Nat
  | .completed _ => 1
  | _ => 0

/-- Contribution of an outcome to `stats.failed`. -/
def failDelta : WalletOutcome → Nat
  | .failed => 1
  | _ => 0

/-- Did the run reach normal completion? -/
def isCompletedB : WalletOutcome → Bool
  | .completed _ => true
  | _ => false

/-- Did the run end in a caught exception? -/
def isFailedB : WalletOutcome → Bool
  | .failed => true
  | _ => false

/-- Did the run abort early on a business-rule failure? -/
def isAbortedB : WalletOutcome → Bool
  | .abortedInvite => true
  | .abortedRegister => true
  | _ => false

end WalletOutcome

/-- Tail of the workflow from the reconnect step (src/main.js 406–413):
always attempt `connectNode`, then fetch the points and store them. The
second component is the trace of session calls issued by this tail. -/
def connectPhase (env : SessionEnv) : WalletOutcome × List Call :=
  match env.connectNode with
  | .error _ => (.failed, [.connectNode])
  | .ok _ =>
    match env.checkNodePoints with
    | .error _ => (.failed, [.connectNode, .checkNodePoints])
    | .ok p => (.completed p, [.connectNode, .checkNodePoints])

/-- Tail of the workflow from the node-status step (src/main.js 398–404):
check the node status, stop the node first only when it is running, then
continue with `connectPhase`. -/
def nodePhase (env : SessionEnv) : WalletOutcome × List Call :=
  match env.checkNodeStatus with
  | .error _ => (.failed, [.checkNodeStatus])
  | .ok true =>
    match env.stopNode with
    | .error _ => (.failed, [.checkNodeStatus, .stopNode])
    | .ok _ =>
      let rest := connectPhase env
      (rest.1, .checkNodeStatus :: .stopNode :: rest.2)
  | .ok false =>
    let rest := connectPhase env
    (rest.1, .checkNodeStatus :: rest.2)

/-- Tail of the workflow from the daily check-in (src/main.js 395–396): the
check-in result is ignored, then continue with `nodePhase`. -/
def checkInPhase (env : SessionEnv) : WalletOutcome × List Call :=
  match env.dailyCheckIn with
  | .error _ => (.failed, [.dailyCheckIn])
  | .ok _ =>
    let rest := nodePhase env
    (rest.1, .dailyCheckIn :: rest.2)

/-- `processWallet` (src/main.js 371–419): the whole per-wallet workflow.
Registration is attempted only when the registration check returned exactly
`false` (`isRegistered === false`); an invalid invite code or a rejected
registration ends the run with a bare `return`; any thrown exception is
caught at this boundary and classified `failed`. -/
def processWallet (env : SessionEnv) : WalletOutcome × List Call :=
  match env.isWalletRegistered with
  | .error _ => (.failed, [.isWalletRegistered])
  | .ok (some false) =>
    match env.checkInvite with
    | .error _ => (.failed, [.isWalletRegistered, .checkInvite])
    | .ok false => (.abortedInvite, [.isWalletRegistered, .checkInvite])
    | .ok true =>
      match env.registerWallet with
      | .error _ => (.failed, [.isWalletRegistered, .checkInvite, .registerWallet])
      | .ok false => (.abortedRegister, [.isWalletRegistered, .checkInvite, .registerWallet])
      | .ok true =>
        let rest := checkInPhase env
        (rest.1, .isWalletRegistered :: .checkInvite :: .registerWallet :: rest.2)
  | .ok _ =>
    let rest := checkInPhase env
    (rest.1, .isWalletRegistered :: rest.2)

/-- Run-wide outcome counters. -/
structure Stats where
  success : Nat
  failed : Nat
deriving DecidableEq

/-- `wallets.slice(i, i + batchSize)` partitioning loop of
`processWalletsInBatches` (src/main.js 424–428).  A batch size of 0 would
make the source loop spin forever without advancing; it is modelled as
producing no batches and is excluded by hypothesis in every theorem (the
program always passes `MAX_CONCURRENT_WALLETS = 10`). -/
def batches (l : List α) (b : Nat) : List (List α) :=
  if b = 0 then []
  else
    match l with
    | [] => []
    | x :: xs => (x :: xs).take b :: batches ((x :: xs).drop b) b
termination_by l.length
decreasing_by
  simp only [List.length_drop, List.length_cons]
  omega

/-- Settling one wallet of the current batch: accumulate its counter
contributions and record its outcome. -/
def processBatchStep (acc : Stats × List WalletOutcome) (env : SessionEnv) :
    Stats × List WalletOutcome :=
  let o := (processWallet env).1
  (⟨acc.1.success + o.succDelta, acc.1.failed + o.failDelta⟩, acc.2 ++ [o])

/-- `processWalletsInBatches` (src/main.js 421–430): walk the batches in
order, settling every wallet of a batch (each with its own caught-at-the-
boundary failure handling) before the next batch starts; counters accumulate
across batches.  Besides the final `stats`, the model records the settled
outcome of every wallet in order. -/
def processWalletsInBatches (envs : List SessionEnv) (b : Nat) :
    Stats × List WalletOutcome :=
  (batches envs b).foldl (fun acc g => g.foldl processBatchStep acc) (⟨0, 0⟩, [])

/-- Example run: already-registered account, node running, 10 points. -/
def envAllOk : SessionEnv :=
  ⟨.ok (some true), .ok true, .ok true, .ok true, .ok true, .ok true, .ok true,
   .ok (some (.jnum 10))⟩

/-- Example run: unregistered account that registers successfully. -/
def envUnregistered : SessionEnv :=
  ⟨.ok (some false), .ok true, .ok true, .ok true, .ok false, .ok true, .ok true,
   .ok (some (.jnum 5))⟩

/-- Example run: unregistered account whose referral code is invalid. -/
def envInvalidInvite : SessionEnv :=
  ⟨.ok (some false), .ok false, .ok true, .ok true, .ok false, .ok true, .ok true,
   .ok (some (.jnum 0))⟩

/-- Example run: unregistered account whose registration call throws. -/
def envRegisterThrows : SessionEnv :=
  ⟨.ok (some false), .ok true, .error (), .ok true, .ok false, .ok true, .ok true,
   .ok (some (.jnum 0))⟩

/-- Example run: registration check failed (`null`), node not running. -/
def envNodeStopped : SessionEnv :=
  ⟨.ok none, .ok true, .ok true, .ok true, .ok false, .ok true, .ok true, .ok none⟩

/-- Attempt oracle where attempt 0 fails as a network error and every later
attempt throws with status 500. -/
def mixedFaultAttempts : Nat → AttemptResult :=
  fun i => if i = 0 then .err none else .err (some 500)

/-- Attempt oracle where every attempt throws with status 500. -/
def allFaultAttempts : Nat → AttemptResult :=
  fun _ => .err (some 500)

/-! ## Lemmas about the retry loop -/

/-- A successful attempt ends the loop at once with that response. -/
theorem makeRequestAux_ok (attempts : Nat → AttemptResult) (b : ℚ) (f i : Nat)
    (r : Response) (ha : attempts i = .ok r) :
    RequestHandler.makeRequestAux attempts b (f + 1) i = ⟨some r, [], 1⟩ := by
  simp [RequestHandler.makeRequestAux, ha]

/-- A failure on the last attempt ends the loop with no result and no
further wait, whatever the failure class. -/
theorem makeRequestAux_last (attempts : Nat → AttemptResult) (b : ℚ) (i : Nat)
    (st : Option Nat) (ha : attempts i = .err st) :
    RequestHandler.makeRequestAux attempts b 1 i = ⟨none, [], 1⟩ := by
  simp [RequestHandler.makeRequestAux, ha]

/-- A status-500 failure with attempts remaining waits `backoffMs * 1.5 ^ i`
and retries. -/
theorem makeRequestAux_err500 (attempts : Nat → AttemptResult) (b : ℚ) (f i : Nat)
    (st : Option Nat) (ha : attempts i = .err st) (h5 : st = some 500) :
    RequestHandler.makeRequestAux attempts b (f + 1 + 1) i =
      ⟨(RequestHandler.makeRequestAux attempts b (f + 1) (i + 1)).result,
       b * (3 / 2) ^ i :: (RequestHandler.makeRequestAux attempts b (f + 1) (i + 1)).delays,
       (RequestHandler.makeRequestAux attempts b (f + 1) (i + 1)).attemptsMade + 1⟩ := by
  simp [RequestHandler.makeRequestAux, ha, h5]

/-- Any other failure with attempts remaining waits the constant 2000 ms
and retries. -/
theorem makeRequestAux_errOther (attempts : Nat → AttemptResult) (b : ℚ) (f i : Nat)
    (st : Option Nat) (ha : attempts i = .err st) (h5 : st ≠ some 500) :
    RequestHandler.makeRequestAux attempts b (f + 1 + 1) i =
      ⟨(RequestHandler.makeRequestAux attempts b (f + 1) (i + 1)).result,
       (2000 : ℚ) :: (RequestHandler.makeRequestAux attempts b (f + 1) (i + 1)).delays,
       (RequestHandler.makeRequestAux attempts b (f + 1) (i + 1)).attemptsMade + 1⟩ := by
  simp [RequestHandler.makeRequestAux, ha, h5]

/-- Characterisation of the recorded waits: the `j`-th wait of the loop
resumed at attempt `i` follows a failure of attempt `i + j`, and equals
`backoffMs * 1.5 ^ (i + j)` for a status-500 failure and the constant
2000 ms otherwise. -/
theorem makeRequestAux_delay_spec (attempts : Nat → AttemptResult) (b : ℚ) :
    ∀ fuel i j d,
      (RequestHandler.makeRequestAux attempts b fuel i).delays.get? j = some d →
      ∃ st, attempts (i + j) = AttemptResult.err st ∧
        d = if st = some 500 then b * (3 / 2) ^ (i + j) else (2000 : ℚ) := by
  intro fuel
  induction fuel with
  | zero =>
    intro i j d h
    simp [RequestHandler.makeRequestAux] at h
  | succ f ih =>
    intro i j d h
    cases ha : attempts i with
    | ok r =>
      rw [makeRequestAux_ok attempts b f i r ha] at h
      simp at h
    | err st =>
      cases f with
      | zero =>
        rw [makeRequestAux_last attempts b i st ha] at h
        simp at h
      | succ f' =>
        by_cases hst : st = some 500
        · rw [makeRequestAux_err500 attempts b f' i st ha hst] at h
          cases j with
          | zero =>
            simp only [List.get?_cons_zero, Option.some.injEq] at h
            refine ⟨st, by simpa using ha, ?_⟩
            rw [if_pos hst, Nat.add_zero]
            exact h.symm
          | succ j' =>
            simp only [List.get?_cons_succ] at h
            obtain ⟨st', h1, h2⟩ := ih (i + 1) j' d h
            have hidx : i + 1 + j' = i + (j' + 1) := by omega
            rw [hidx] at h1 h2
            exact ⟨st', h1, h2⟩
        · rw [makeRequestAux_errOther attempts b f' i st ha hst] at h
          cases j with
          | zero =>
            simp only [List.get?_cons_zero, Option.some.injEq] at h
            refine ⟨st, by simpa using ha, ?_⟩
            rw [if_neg hst]
            exact h.symm
          | succ j' =>
            simp only [List.get?_cons_succ] at h
            obtain ⟨st', h1, h2⟩ := ih (i + 1) j' d h
            have hidx : i + 1 + j' = i + (j' + 1) := by omega
            rw [hidx] at h1 h2
            exact ⟨st', h1, h2⟩

/-- When every attempt throws with status 500, the loop uses all its fuel:
no result, one attempt per unit of fuel, one wait between consecutive
attempts. -/
theorem makeRequestAux_all500 (attempts : Nat → AttemptResult) (b : ℚ)
    (hall : ∀ j, attempts j = .err (some 500)) :
    ∀ fuel i,
      (RequestHandler.makeRequestAux attempts b fuel i).result = none ∧
      (RequestHandler.makeRequestAux attempts b fuel i).attemptsMade = fuel ∧
      (RequestHandler.makeRequestAux attempts b fuel i).delays.length = fuel - 1 := by
  intro fuel
  induction fuel with
  | zero =>
    intro i
    simp [RequestHandler.makeRequestAux]
  | succ f ih =>
    intro i
    cases f with
    | zero =>
      rw [makeRequestAux_last attempts b i (some 500) (hall i)]
      simp
    | succ f' =>
      rw [makeRequestAux_err500 attempts b f' i (some 500) (hall i) rfl]
      obtain ⟨h1, h2, h3⟩ := ih (i + 1)
      simp [h1, h2, h3]

/-- When every attempt throws (with whatever status), no response is
returned. -/
theorem makeRequestAux_result_none (attempts : Nat → AttemptResult) (b : ℚ)
    (hall : ∀ j, ∃ st, attempts j = .err st) :
    ∀ fuel i, (RequestHandler.makeRequestAux attempts b fuel i).result = none := by
  intro fuel
  induction fuel with
  | zero =>
    intro i
    simp [RequestHandler.makeRequestAux]
  | succ f ih =>
    intro i
    obtain ⟨st, hst⟩ := hall i
    cases f with
    | zero =>
      rw [makeRequestAux_last attempts b i st hst]
    | succ f' =>
      by_cases h5 : st = some 500
      · rw [makeRequestAux_err500 attempts b f' i st hst h5]
        exact ih (i + 1)
      · rw [makeRequestAux_errOther attempts b f' i st hst h5]
        exact ih (i + 1)

/-- The loop never issues more attempts than its fuel allows. -/
theorem makeRequestAux_attempts_le (attempts : Nat → AttemptResult) (b : ℚ) :
    ∀ fuel i, (RequestHandler.makeRequestAux attempts b fuel i).attemptsMade ≤ fuel := by
  intro fuel
  induction fuel with
  | zero =>
    intro i
    simp [RequestHandler.makeRequestAux]
  | succ f ih =>
    intro i
    cases ha : attempts i with
    | ok r =>
      rw [makeRequestAux_ok attempts b f i r ha]
      simp
    | err st =>
      cases f with
      | zero =>
        rw [makeRequestAux_last attempts b i st ha]
      | succ f' =>
        by_cases h5 : st = some 500
        · rw [makeRequestAux_err500 attempts b f' i st ha h5]
          have := ih (i + 1)
          simp only []
          omega
        · rw [makeRequestAux_errOther attempts b f' i st ha h5]
          have := ih (i + 1)
          simp only []
          omega

/-! ## Claims about the request layer -/

/-- C3 counterexample: with budget 3 and base 2000 ms, attempt 0 fails as a
network error and attempt 1 is the **first** server-fault (status 500)
failure, i.e. `k = 1` in the claim.  The delay recorded before the retry
that follows it is 3000 ms = 2000 × 1.5¹ — keyed to the overall attempt
index 1 — whereas the claim's formula `baseBackoffMs × 1.5^(k-1)` predicts
2000 × 1.5⁰ = 2000 ms.  The exponent therefore does depend on earlier
non-server-fault failures. -/
theorem c3_counterexample :
    (RequestHandler.makeRequest mixedFaultAttempts 3 2000).delays = [2000, 3000] ∧
    mixedFaultAttempts 0 = AttemptResult.err none ∧
    mixedFaultAttempts 1 = AttemptResult.err (some 500) ∧
    (3000 : ℚ) ≠ 2000 * (3 / 2) ^ (1 - 1) := by
  refine ⟨?_, rfl, rfl, by norm_num⟩
  norm_num [RequestHandler.makeRequest, RequestHandler.makeRequestAux, mixedFaultAttempts]

/-- C3 (amended): the server-fault backoff exponent is the overall 0-based
attempt index, not the server-fault count: whenever a wait is recorded at
position `j` (i.e. before the retry that follows attempt `j`) and attempt
`j` failed with status 500, that wait equals `backoffMs × 1.5 ^ j`,
whatever mix of failure classes preceded it. -/
theorem c3_backoff_exponent_is_attempt_index (attempts : Nat → AttemptResult)
    (retries : Nat) (b : ℚ) (j : Nat) (d : ℚ)
    (hd : (RequestHandler.makeRequest attempts retries b).delays.get? j = some d)
    (h500 : attempts j = AttemptResult.err (some 500)) :
    d = b * (3 / 2) ^ j := by
  obtain ⟨st, hst, hdd⟩ := makeRequestAux_delay_spec attempts b retries 0 j d hd
  rw [Nat.zero_add] at hst hdd
  rw [h500] at hst
  have he : some 500 = st := AttemptResult.err.inj hst
  rw [hdd, if_pos he.symm]

/-- C3 witness: at the counterexample input, the wait following the
server-fault failure of attempt index 1 is `2000 × 1.5¹`. -/
theorem c3_backoff_exponent_witness :
    (RequestHandler.makeRequest mixedFaultAttempts 3 2000).delays.get? 1 =
      some (2000 * (3 / 2) ^ 1) := by
  have h : (RequestHandler.makeRequest mixedFaultAttempts 3 2000).delays.get? 1 =
      some 3000 := by
    norm_num [RequestHandler.makeRequest, RequestHandler.makeRequestAux, mixedFaultAttempts]
  have h2 := c3_backoff_exponent_is_attempt_index mixedFaultAttempts 3 2000 1 3000 h rfl
  rw [h, h2]

/-- C4: if every attempt fails with status 500, a budget of `r ≥ 1` issues
exactly `r` attempts and `r - 1` backoff waits, the wait after 0-based
attempt `i` being `baseBackoffMs × 1.5 ^ i`, and returns `null` after the
last attempt with no further wait (the wait list has exactly `r - 1`
entries, one per non-final attempt). -/
theorem c4_server_fault_exhaustion (attempts : Nat → AttemptResult) (r : Nat)
    (b : ℚ) (_hr : 1 ≤ r) (hall : ∀ j, attempts j = AttemptResult.err (some 500)) :
    (RequestHandler.makeRequest attempts r b).result = none ∧
    (RequestHandler.makeRequest attempts r b).attemptsMade = r ∧
    (RequestHandler.makeRequest attempts r b).delays.length = r - 1 ∧
    (∀ j d, (RequestHandler.makeRequest attempts r b).delays.get? j = some d →
      d = b * (3 / 2) ^ j) := by
  obtain ⟨h1, h2, h3⟩ := makeRequestAux_all500 attempts b hall r 0
  refine ⟨h1, h2, h3, ?_⟩
  intro j d hd
  obtain ⟨st, hst, hdd⟩ := makeRequestAux_delay_spec attempts b r 0 j d hd
  rw [Nat.zero_add] at hst hdd
  rw [hall j] at hst
  have he : some 500 = st := AttemptResult.err.inj hst
  rw [hdd, if_pos he.symm]

/-- C4 witness: three all-server-fault attempts with base 2000 ms produce
no result, 3 attempts and the waits 2000 ms and 3000 ms. -/
theorem c4_server_fault_exhaustion_witness :
    (RequestHandler.makeRequest allFaultAttempts 3 2000).result = none ∧
    (RequestHandler.makeRequest allFaultAttempts 3 2000).attemptsMade = 3 ∧
    (RequestHandler.makeRequest allFaultAttempts 3 2000).delays = [2000, 3000] := by
  have h := c4_server_fault_exhaustion allFaultAttempts 3 2000 (by norm_num) (fun j => rfl)
  refine ⟨h.1, h.2.1, ?_⟩
  norm_num [RequestHandler.makeRequest, RequestHandler.makeRequestAux, allFaultAttempts]

/-- C8: non-server-fault failures are retried after the constant 2000 ms
wait (never growing with the attempt index); when every attempt fails the
final result is `null`; and under the session's `validateStatus`, a
response with status below 500 is returned to the caller as an ordinary
result on the attempt that received it, with no retry and no wait. -/
theorem c8_non_server_fault_handling (attempts : Nat → AttemptResult) (r : Nat)
    (b : ℚ) (raw : Nat → RawResult) (resp : Response) (hr : 1 ≤ r) :
    (∀ j d st, (RequestHandler.makeRequest attempts r b).delays.get? j = some d →
        attempts j = AttemptResult.err st → st ≠ some 500 → d = 2000) ∧
    ((∀ j, ∃ st, attempts j = AttemptResult.err st) →
        (RequestHandler.makeRequest attempts r b).result = none) ∧
    (raw 0 = RawResult.got resp → validateStatus resp.status = true →
        RequestHandler.makeRequest (fun i => axiosClassify (raw i)) r b =
          ⟨some resp, [], 1⟩) := by
  refine ⟨?_, ?_, ?_⟩
  · intro j d st hd hatt hne
    obtain ⟨st', hst', hdd⟩ := makeRequestAux_delay_spec attempts b r 0 j d hd
    rw [Nat.zero_add] at hst' hdd
    rw [hatt] at hst'
    have he : st = st' := AttemptResult.err.inj hst'
    rw [hdd, if_neg (he ▸ hne)]
  · intro hall
    exact makeRequestAux_result_none attempts b hall r 0
  · intro h0 hv
    cases r with
    | zero => omega
    | succ r' =>
      have ha : (fun i => axiosClassify (raw i)) 0 = AttemptResult.ok resp := by
        simp [axiosClassify, h0, hv]
      exact makeRequestAux_ok _ b r' 0 resp ha

/-- C8 witness: two all-network-error attempts end with `null`, waiting the
constant 2000 ms in between; a 404 response under the session's
`validateStatus` is returned at once as an ordinary result. -/
theorem c8_non_server_fault_witness :
    (RequestHandler.makeRequest (fun _ => AttemptResult.err none) 2 2000).result = none ∧
    RequestHandler.makeRequest
        (fun i => axiosClassify ((fun _ => RawResult.got ⟨404, JSVal.jobj []⟩) i)) 2 2000 =
      ⟨some ⟨404, JSVal.jobj []⟩, [], 1⟩ ∧
    (RequestHandler.makeRequest (fun _ => AttemptResult.err none) 2 2000).delays = [2000] := by
  have h := c8_non_server_fault_handling (fun _ => AttemptResult.err none) 2 2000
      (fun _ => RawResult.got ⟨404, JSVal.jobj []⟩) ⟨404, JSVal.jobj []⟩ (by norm_num)
  refine ⟨h.2.1 (fun j => ⟨none, rfl⟩), h.2.2 rfl rfl, ?_⟩
  norm_num [RequestHandler.makeRequest, RequestHandler.makeRequestAux]

/-- C10: the session constructor fixes `retryCount = 2`; that budget — not
the handler's own default of 3 — bounds every request issued through the
session at 2 attempts. -/
theorem c10_session_budget_two (proxy : Option String) (refCode : String)
    (attempts : Nat → AttemptResult) :
    (LayerEdgeConnection.construct proxy refCode).retryCount = 2 ∧
    RequestHandler.defaultRetries = 3 ∧
    ((LayerEdgeConnection.construct proxy refCode).makeRequest attempts).attemptsMade ≤ 2 := by
  refine ⟨rfl, rfl, ?_⟩
  exact makeRequestAux_attempts_le attempts RequestHandler.defaultBackoffMs 2 0

/-! ## Lemmas about the workflow traces -/

/-- The reconnect tail issues `connectNode` and, unless it threw, the point
query. -/
theorem connectPhase_trace (e : SessionEnv) :
    (connectPhase e).2 = [Call.connectNode] ∨
    (connectPhase e).2 = [Call.connectNode, Call.checkNodePoints] := by
  rcases hc : e.connectNode with u | v <;>
    rcases hp : e.checkNodePoints with u' | p <;>
    simp [connectPhase, hc, hp]

/-- The reconnect tail always starts by calling `connectNode`. -/
theorem connectPhase_head (e : SessionEnv) :
    ∃ rest, (connectPhase e).2 = Call.connectNode :: rest := by
  rcases connectPhase_trace e with h | h <;> exact ⟨_, h⟩

/-- Calls the reconnect tail can issue. -/
theorem mem_connectPhase (e : SessionEnv) (c : Call) (h : c ∈ (connectPhase e).2) :
    c = Call.connectNode ∨ c = Call.checkNodePoints := by
  rcases connectPhase_trace e with h1 | h1 <;> rw [h1] at h <;> simp at h <;> tauto

/-- The node tail when the status check reported the node running and the
stop call returned: stop before reconnect. -/
theorem nodePhase_trace_running (e : SessionEnv) (s : Bool)
    (h : e.checkNodeStatus = .ok true) (hs : e.stopNode = .ok s) :
    (nodePhase e).2 = Call.checkNodeStatus :: Call.stopNode :: (connectPhase e).2 := by
  simp [nodePhase, h, hs]

/-- The node tail when the status check reported the node not running: no
stop call, straight to reconnect. -/
theorem nodePhase_trace_stopped (e : SessionEnv)
    (h : e.checkNodeStatus = .ok false) :
    (nodePhase e).2 = Call.checkNodeStatus :: (connectPhase e).2 := by
  simp [nodePhase, h]

/-- The four possible shapes of the node tail's trace. -/
theorem nodePhase_trace (e : SessionEnv) :
    (nodePhase e).2 = [Call.checkNodeStatus] ∨
    (nodePhase e).2 = Call.checkNodeStatus :: (connectPhase e).2 ∨
    (nodePhase e).2 = [Call.checkNodeStatus, Call.stopNode] ∨
    (nodePhase e).2 = Call.checkNodeStatus :: Call.stopNode :: (connectPhase e).2 := by
  rcases hn : e.checkNodeStatus with u | bb
  · simp [nodePhase, hn]
  · cases bb
    · simp [nodePhase, hn]
    · rcases hs : e.stopNode with u | s <;> simp [nodePhase, hn, hs]

/-- Calls the node tail can issue. -/
theorem mem_nodePhase (e : SessionEnv) (c : Call) (h : c ∈ (nodePhase e).2) :
    c = Call.checkNodeStatus ∨ c = Call.stopNode ∨ c = Call.connectNode ∨
    c = Call.checkNodePoints := by
  rcases nodePhase_trace e with h1 | h1 | h1 | h1 <;> rw [h1] at h <;> simp at h
  · tauto
  · rcases h with h | h
    · tauto
    · rcases mem_connectPhase e c h with h2 | h2 <;> tauto
  · tauto
  · rcases h with h | h | h
    · tauto
    · tauto
    · rcases mem_connectPhase e c h with h2 | h2 <;> tauto

/-- The two possible shapes of the check-in tail's trace. -/
theorem checkInPhase_trace (e : SessionEnv) :
    (checkInPhase e).2 = [Call.dailyCheckIn] ∨
    (checkInPhase e).2 = Call.dailyCheckIn :: (nodePhase e).2 := by
  rcases hd : e.dailyCheckIn with u | v <;> simp [checkInPhase, hd]

/-- Calls the check-in tail can issue. -/
theorem mem_checkInPhase (e : SessionEnv) (c : Call) (h : c ∈ (checkInPhase e).2) :
    c = Call.dailyCheckIn ∨ c = Call.checkNodeStatus ∨ c = Call.stopNode ∨
    c = Call.connectNode ∨ c = Call.checkNodePoints := by
  rcases checkInPhase_trace e with h1 | h1 <;> rw [h1] at h <;> simp at h
  · tauto
  · rcases h with h | h
    · tauto
    · rcases mem_nodePhase e c h with h2 | h2 | h2 | h2 <;> tauto

/-- The check-in tail never issues a referral-verification call. -/
theorem checkInvite_not_mem_checkInPhase (e : SessionEnv) :
    Call.checkInvite ∉ (checkInPhase e).2 := by
  intro h
  rcases mem_checkInPhase e _ h with h1 | h1 | h1 | h1 | h1 <;> exact absurd h1 (by decide)

/-- The check-in tail never issues a registration call. -/
theorem registerWallet_not_mem_checkInPhase (e : SessionEnv) :
    Call.registerWallet ∉ (checkInPhase e).2 := by
  intro h
  rcases mem_checkInPhase e _ h with h1 | h1 | h1 | h1 | h1 <;> exact absurd h1 (by decide)

/-- The check-in tail starts with the daily attestation call. -/
theorem checkInPhase_take_one (e : SessionEnv) :
    (Call.isWalletRegistered :: (checkInPhase e).2).take 2 =
      [Call.isWalletRegistered, Call.dailyCheckIn] := by
  rcases checkInPhase_trace e with h | h <;> rw [h] <;> rfl

/-- A registered account's trace: the registration check, then the
check-in tail. -/
theorem processWallet_trace_true (e : SessionEnv)
    (h : e.isWalletRegistered = .ok (some true)) :
    (processWallet e).2 = Call.isWalletRegistered :: (checkInPhase e).2 := by
  simp [processWallet, h]

/-- An unknown (`null`) registration check's trace: same shape as the
registered case. -/
theorem processWallet_trace_null (e : SessionEnv)
    (h : e.isWalletRegistered = .ok none) :
    (processWallet e).2 = Call.isWalletRegistered :: (checkInPhase e).2 := by
  simp [processWallet, h]

/-- An unregistered account's trace starts with the registration check and
the referral verification; when the verification succeeds, the registration
call comes third. -/
theorem processWallet_trace_false (e : SessionEnv)
    (h : e.isWalletRegistered = .ok (some false)) :
    (processWallet e).2.take 2 = [Call.isWalletRegistered, Call.checkInvite] ∧
    (e.checkInvite = .ok true →
      (processWallet e).2.take 3 =
        [Call.isWalletRegistered, Call.checkInvite, Call.registerWallet]) := by
  rcases hi : e.checkInvite with u | bi
  · constructor
    · simp [processWallet, h, hi]
    · intro hx
      simp at hx
  · cases bi
    · constructor
      · simp [processWallet, h, hi]
      · intro hx
        simp at hx
    · constructor
      · rcases hr : e.registerWallet with u | br
        · simp [processWallet, h, hi, hr]
        · cases br <;> simp [processWallet, h, hi, hr]
      · intro hx
        rcases hr : e.registerWallet with u | br
        · simp [processWallet, h, hi, hr]
        · cases br <;> simp [processWallet, h, hi, hr]

/-- C6: the registration check branches exactly three ways.  A `true`
result issues neither the referral-verification nor the registration call
and the next call is the daily attestation; an unknown (`null`) result
behaves the same (the strict `isRegistered === false` test fails); a
`false` result puts the referral verification next, followed — when the
verification succeeds — by the registration call. -/
theorem c6_registration_branching (e : SessionEnv) :
    (e.isWalletRegistered = Except.ok (some true) →
      Call.checkInvite ∉ (processWallet e).2 ∧
      Call.registerWallet ∉ (processWallet e).2 ∧
      (processWallet e).2.take 2 = [Call.isWalletRegistered, Call.dailyCheckIn]) ∧
    (e.isWalletRegistered = Except.ok none →
      Call.checkInvite ∉ (processWallet e).2 ∧
      Call.registerWallet ∉ (processWallet e).2 ∧
      (processWallet e).2.take 2 = [Call.isWalletRegistered, Call.dailyCheckIn]) ∧
    (e.isWalletRegistered = Except.ok (some false) →
      (processWallet e).2.take 2 = [Call.isWalletRegistered, Call.checkInvite] ∧
      (e.checkInvite = Except.ok true →
        (processWallet e).2.take 3 =
          [Call.isWalletRegistered, Call.checkInvite, Call.registerWallet])) := by
  refine ⟨?_, ?_, ?_⟩
  · intro h
    rw [processWallet_trace_true e h]
    refine ⟨?_, ?_, checkInPhase_take_one e⟩
    · intro hmem
      rcases List.mem_cons.mp hmem with h1 | h1
      · exact absurd h1 (by decide)
      · exact checkInvite_not_mem_checkInPhase e h1
    · intro hmem
      rcases List.mem_cons.mp hmem with h1 | h1
      · exact absurd h1 (by decide)
      · exact registerWallet_not_mem_checkInPhase e h1
  · intro h
    rw [processWallet_trace_null e h]
    refine ⟨?_, ?_, checkInPhase_take_one e⟩
    · intro hmem
      rcases List.mem_cons.mp hmem with h1 | h1
      · exact absurd h1 (by decide)
      · exact checkInvite_not_mem_checkInPhase e h1
    · intro hmem
      rcases List.mem_cons.mp hmem with h1 | h1
      · exact absurd h1 (by decide)
      · exact registerWallet_not_mem_checkInPhase e h1
  · intro h
    exact processWallet_trace_false e h

/-- C6 witness: for the concrete registered account no referral call is
issued and the attestation comes second; for the concrete unregistered
account the registration call comes third. -/
theorem c6_registration_branching_witness :
    Call.checkInvite ∉ (processWallet envAllOk).2 ∧
    (processWallet envAllOk).2.take 2 = [Call.isWalletRegistered, Call.dailyCheckIn] ∧
    (processWallet envUnregistered).2.take 3 =
      [Call.isWalletRegistered, Call.checkInvite, Call.registerWallet] := by
  have h1 := (c6_registration_branching envAllOk).1 rfl
  have h2 := ((c6_registration_branching envUnregistered).2.2 rfl).2 rfl
  exact ⟨h1.1, h1.2.2, h2⟩

/-- If a run's trace is a prefix (free of node calls) followed by the
check-in tail and it reaches the node-status step, it decomposes as a
prefix free of node calls followed by the node tail. -/
theorem reach_aux (e : SessionEnv) (pre0 : List Call)
    (heq : (processWallet e).2 = pre0 ++ (checkInPhase e).2)
    (h : Call.checkNodeStatus ∈ (processWallet e).2)
    (hs0 : Call.stopNode ∉ pre0) (hc0 : Call.connectNode ∉ pre0)
    (hn0 : Call.checkNodeStatus ∉ pre0) :
    ∃ pre, (processWallet e).2 = pre ++ (nodePhase e).2 ∧
      Call.stopNode ∉ pre ∧ Call.connectNode ∉ pre := by
  rcases checkInPhase_trace e with hcp | hcp
  · exfalso
    rw [heq, hcp] at h
    rcases List.mem_append.mp h with hm | hm
    · exact hn0 hm
    · simp at hm
  · refine ⟨pre0 ++ [Call.dailyCheckIn], ?_, ?_, ?_⟩
    · rw [heq, hcp]
      simp
    · intro hm
      rcases List.mem_append.mp hm with hm1 | hm1
      · exact hs0 hm1
      · simp at hm1
    · intro hm
      rcases List.mem_append.mp hm with hm1 | hm1
      · exact hc0 hm1
      · simp at hm1

/-- A run that reaches the node-status step decomposes as a registration /
check-in prefix containing neither node action, followed by the node tail. -/
theorem reach_nodePhase (e : SessionEnv)
    (h : Call.checkNodeStatus ∈ (processWallet e).2) :
    ∃ pre, (processWallet e).2 = pre ++ (nodePhase e).2 ∧
      Call.stopNode ∉ pre ∧ Call.connectNode ∉ pre := by
  rcases hir : e.isWalletRegistered with u | v
  · rw [show (processWallet e).2 = [Call.isWalletRegistered] from by
      simp [processWallet, hir]] at h
    simp at h
  · rcases v with _ | b
    · exact reach_aux e [Call.isWalletRegistered] (processWallet_trace_null e hir) h
        (by decide) (by decide) (by decide)
    · cases b
      · rcases hi : e.checkInvite with u | bi
        · rw [show (processWallet e).2 = [Call.isWalletRegistered, Call.checkInvite] from by
            simp [processWallet, hir, hi]] at h
          simp at h
        · cases bi
          · rw [show (processWallet e).2 = [Call.isWalletRegistered, Call.checkInvite] from by
              simp [processWallet, hir, hi]] at h
            simp at h
          · rcases hr : e.registerWallet with u | br
            · rw [show (processWallet e).2 =
                [Call.isWalletRegistered, Call.checkInvite, Call.registerWallet] from by
                simp [processWallet, hir, hi, hr]] at h
              simp at h
            · cases br
              · rw [show (processWallet e).2 =
                  [Call.isWalletRegistered, Call.checkInvite, Call.registerWallet] from by
                  simp [processWallet, hir, hi, hr]] at h
                simp at h
              · exact reach_aux e
                  [Call.isWalletRegistered, Call.checkInvite, Call.registerWallet]
                  (by simp [processWallet, hir, hi, hr]) h (by decide) (by decide) (by decide)
      · exact reach_aux e [Call.isWalletRegistered] (processWallet_trace_true e hir) h
          (by decide) (by decide) (by decide)

/-- C7: in every run that reaches the node-status step, a running node
(status check `true`, stop call returning) triggers the stop call before
the reconnect call; a non-running node skips the stop call; and the
reconnect call is issued in both cases, whatever the earlier steps
returned. -/
theorem c7_node_phase_sequencing (e : SessionEnv)
    (hreach : Call.checkNodeStatus ∈ (processWallet e).2) :
    (e.checkNodeStatus = Except.ok true → e.stopNode ≠ Except.error () →
      [Call.stopNode, Call.connectNode].Sublist (processWallet e).2 ∧
      Call.connectNode ∈ (processWallet e).2) ∧
    (e.checkNodeStatus = Except.ok false →
      Call.stopNode ∉ (processWallet e).2 ∧ Call.connectNode ∈ (processWallet e).2) := by
  obtain ⟨pre, hpre, hsn, hcn⟩ := reach_nodePhase e hreach
  constructor
  · intro htrue hstop
    rcases hs : e.stopNode with u | s
    · cases u
      exact absurd hs hstop
    · obtain ⟨rest, hrest⟩ := connectPhase_head e
      have hsub : [Call.stopNode, Call.connectNode].Sublist (nodePhase e).2 := by
        rw [nodePhase_trace_running e s htrue hs, hrest]
        exact List.Sublist.cons _
          (List.Sublist.cons₂ _ (List.Sublist.cons₂ _ (List.nil_sublist rest)))
      have hsub2 : [Call.stopNode, Call.connectNode].Sublist (processWallet e).2 := by
        rw [hpre]
        exact hsub.trans (List.sublist_append_right pre (nodePhase e).2)
      exact ⟨hsub2, hsub2.subset (by decide)⟩
  · intro hfalse
    constructor
    · rw [hpre, nodePhase_trace_stopped e hfalse]
      intro hm
      rcases List.mem_append.mp hm with hm1 | hm1
      · exact hsn hm1
      · rcases List.mem_cons.mp hm1 with hm2 | hm2
        · exact absurd hm2 (by decide)
        · rcases mem_connectPhase e _ hm2 with h2 | h2 <;> exact absurd h2 (by decide)
    · rw [hpre, nodePhase_trace_stopped e hfalse]
      obtain ⟨rest, hrest⟩ := connectPhase_head e
      rw [hrest]
      simp

/-- C7 witness: the concrete running-node account stops before
reconnecting; the concrete stopped-node account never stops but still
reconnects. -/
theorem c7_node_phase_witness :
    [Call.stopNode, Call.connectNode].Sublist (processWallet envAllOk).2 ∧
    Call.stopNode ∉ (processWallet envNodeStopped).2 ∧
    Call.connectNode ∈ (processWallet envNodeStopped).2 := by
  have h1 := (c7_node_phase_sequencing envAllOk (by decide)).1 rfl (by simp [envAllOk])
  have h2 := (c7_node_phase_sequencing envNodeStopped (by decide)).2 rfl
  exact ⟨h1.1, h2.1, h2.2⟩

/-! ## Lemmas about the batch orchestrator -/

/-- The batching loop on an empty list produces no batches. -/
theorem batches_nil (b : Nat) : batches ([] : List α) b = [] := by
  unfold batches
  split <;> rfl

/-- One iteration of the batching loop: slice off `batchSize` accounts. -/
theorem batches_cons (x : α) (xs : List α) (b : Nat) (hb : b ≠ 0) :
    batches (x :: xs) b = (x :: xs).take b :: batches ((x :: xs).drop b) b := by
  conv_lhs => rw [batches]
  simp [hb]

/-- The batching loop of a nonempty list produces at least one batch. -/
theorem batches_ne_nil (x : α) (xs : List α) (b : Nat) (hb : b ≠ 0) :
    batches (x :: xs) b ≠ [] := by
  rw [batches_cons x xs b hb]
  exact List.cons_ne_nil _ _

/-- The batches concatenate back to the original list: every account lands
in exactly one batch, in order. -/
theorem batches_flatten (b : Nat) (hb : b ≠ 0) (l : List α) :
    (batches l b).flatten = l := by
  have H : ∀ n (l : List α), l.length ≤ n → (batches l b).flatten = l := by
    intro n
    induction n with
    | zero =>
      intro l hl
      have h0 : l = [] := List.length_eq_zero.mp (Nat.le_zero.mp hl)
      subst h0
      rw [batches_nil]
      rfl
    | succ n ih =>
      intro l hl
      cases l with
      | nil =>
        rw [batches_nil]
        rfl
      | cons x xs =>
        rw [batches_cons x xs b hb, List.flatten_cons,
          ih ((x :: xs).drop b) (by simp only [List.length_drop, List.length_cons] at hl ⊢; omega)]
        exact List.take_append_drop b (x :: xs)
  exact H l.length l le_rfl

/-- The number of batches is `⌈length / batchSize⌉`. -/
theorem batches_length (b : Nat) (hb : b ≠ 0) (l : List α) :
    (batches l b).length = (l.length + b - 1) / b := by
  have H : ∀ n (l : List α), l.length ≤ n →
      (batches l b).length = (l.length + b - 1) / b := by
    intro n
    induction n with
    | zero =>
      intro l hl
      have h0 : l = [] := List.length_eq_zero.mp (Nat.le_zero.mp hl)
      subst h0
      rw [batches_nil]
      simp [Nat.div_eq_of_lt (show b - 1 < b by omega)]
    | succ n ih =>
      intro l hl
      cases l with
      | nil =>
        rw [batches_nil]
        simp [Nat.div_eq_of_lt (show b - 1 < b by omega)]
      | cons x xs =>
        rw [batches_cons x xs b hb]
        rw [List.length_cons, ih ((x :: xs).drop b) (by simp only [List.length_drop, List.length_cons] at hl ⊢; omega)]
        simp only [List.length_drop, List.length_cons]
        by_cases hN : xs.length + 1 ≤ b
        · have h1 : xs.length + 1 - b = 0 := by omega
          rw [h1, Nat.div_eq_of_lt (show 0 + b - 1 < b by omega),
            Nat.div_eq_of_lt_le (show 1 * b ≤ xs.length + 1 + b - 1 by omega)
              (show xs.length + 1 + b - 1 < (1 + 1) * b by omega)]
        · have h2 : xs.length + 1 - b + b - 1 = xs.length := by omega
          have h3 : xs.length + 1 + b - 1 = xs.length + b := by omega
          rw [h2, h3, Nat.add_div_right _ (by omega)]
  exact H l.length l le_rfl

/-- Every batch is nonempty with at most `batchSize` accounts. -/
theorem batches_mem_size (b : Nat) (hb : b ≠ 0) (l : List α) :
    ∀ g ∈ batches l b, g.length ≤ b ∧ g ≠ [] := by
  have H : ∀ n (l : List α), l.length ≤ n → ∀ g ∈ batches l b, g.length ≤ b ∧ g ≠ [] := by
    intro n
    induction n with
    | zero =>
      intro l hl
      have h0 : l = [] := List.length_eq_zero.mp (Nat.le_zero.mp hl)
      subst h0
      rw [batches_nil]
      intro g hg
      simp at hg
    | succ n ih =>
      intro l hl
      cases l with
      | nil =>
        rw [batches_nil]
        intro g hg
        simp at hg
      | cons x xs =>
        rw [batches_cons x xs b hb]
        intro g hg
        rcases List.mem_cons.mp hg with h1 | h1
        · subst h1
          constructor
          · simp
          · simp [List.take_eq_nil_iff, hb]
        · exact ih ((x :: xs).drop b) (by simp only [List.length_drop, List.length_cons] at hl ⊢; omega) g h1
  exact H l.length l le_rfl

/-- Every batch except possibly the last has exactly `batchSize` accounts. -/
theorem batches_dropLast_size (b : Nat) (hb : b ≠ 0) (l : List α) :
    ∀ g ∈ (batches l b).dropLast, g.length = b := by
  have H : ∀ n (l : List α), l.length ≤ n → ∀ g ∈ (batches l b).dropLast, g.length = b := by
    intro n
    induction n with
    | zero =>
      intro l hl
      have h0 : l = [] := List.length_eq_zero.mp (Nat.le_zero.mp hl)
      subst h0
      rw [batches_nil]
      intro g hg
      simp at hg
    | succ n ih =>
      intro l hl
      cases l with
      | nil =>
        rw [batches_nil]
        intro g hg
        simp at hg
      | cons x xs =>
        rw [batches_cons x xs b hb]
        rcases hds : batches ((x :: xs).drop b) b with _ | ⟨g0, gs⟩
        · intro g hg
          simp at hg
        · have hdrop : (x :: xs).drop b ≠ [] := by
            intro hnil
            rw [hnil, batches_nil] at hds
            cases hds
          have hlen : b < (x :: xs).length := by
            rcases Nat.lt_or_ge b (x :: xs).length with hlt | hge
            · exact hlt
            · exact absurd (List.drop_eq_nil_iff.mpr hge) hdrop
          intro g hg
          rw [List.dropLast_cons₂] at hg
          rcases List.mem_cons.mp hg with h1 | h1
          · subst h1
            rw [List.length_take]
            simp only [List.length_cons] at hlen ⊢
            omega
          · rw [← hds] at h1
            exact ih ((x :: xs).drop b) (by simp only [List.length_drop, List.length_cons] at hl ⊢; omega) g h1
  exact H l.length l le_rfl

/-- Folding the per-wallet settlement step accumulates the two counters and
appends each wallet's own outcome, independent of the starting accumulator. -/
theorem foldl_processBatchStep (l : List SessionEnv) :
    ∀ s f out,
      l.foldl processBatchStep (⟨s, f⟩, out) =
        (⟨s + l.countP (fun e => ((processWallet e).1).isCompletedB),
          f + l.countP (fun e => ((processWallet e).1).isFailedB)⟩,
         out ++ l.map (fun e => (processWallet e).1)) := by
  induction l with
  | nil =>
    intro s f out
    simp
  | cons x xs ih =>
    intro s f out
    rw [List.foldl_cons]
    have hstep : processBatchStep (⟨s, f⟩, out) x =
        (⟨s + ((processWallet x).1).succDelta, f + ((processWallet x).1).failDelta⟩,
         out ++ [(processWallet x).1]) := rfl
    rw [hstep, ih]
    have hc : (if ((processWallet x).1).isCompletedB then 1 else 0) =
        ((processWallet x).1).succDelta := by
      cases ho : (processWallet x).1 <;> rfl
    have hf : (if ((processWallet x).1).isFailedB then 1 else 0) =
        ((processWallet x).1).failDelta := by
      cases ho : (processWallet x).1 <;> rfl
    simp only [List.countP_cons, List.map_cons, hc, hf, Prod.mk.injEq, Stats.mk.injEq]
    refine ⟨⟨by omega, by omega⟩, by simp⟩

/-- Folding batch-by-batch is folding over the concatenation. -/
theorem foldl_batches_flatten (gs : List (List SessionEnv)) :
    ∀ acc : Stats × List WalletOutcome,
      gs.foldl (fun acc g => g.foldl processBatchStep acc) acc =
        gs.flatten.foldl processBatchStep acc := by
  induction gs with
  | nil =>
    intro acc
    rfl
  | cons g gs ih =>
    intro acc
    rw [List.foldl_cons, ih, List.flatten_cons, List.foldl_append]

/-- Closed form of the orchestrator: the final counters count the completed
and the exception-failed runs, and the recorded outcomes are each wallet's
own, in order — one account's outcome never affects a sibling's entry. -/
theorem processWalletsInBatches_spec (envs : List SessionEnv) (b : Nat) (hb : b ≠ 0) :
    processWalletsInBatches envs b =
      (⟨envs.countP (fun e => ((processWallet e).1).isCompletedB),
        envs.countP (fun e => ((processWallet e).1).isFailedB)⟩,
       envs.map (fun e => (processWallet e).1)) := by
  unfold processWalletsInBatches
  rw [foldl_batches_flatten, batches_flatten b hb envs]
  have h := foldl_processBatchStep envs 0 0 []
  simpa using h

/-- Every run settles as exactly one of: completed, exception-failed, or
early-aborted. -/
theorem outcome_partition (envs : List SessionEnv) :
    envs.countP (fun e => ((processWallet e).1).isCompletedB) +
      envs.countP (fun e => ((processWallet e).1).isFailedB) +
      envs.countP (fun e => ((processWallet e).1).isAbortedB) = envs.length := by
  induction envs with
  | nil => rfl
  | cons x xs ih =>
    simp only [List.countP_cons, List.length_cons]
    have hsum : (if ((processWallet x).1).isCompletedB then 1 else 0) +
        ((if ((processWallet x).1).isFailedB then 1 else 0) +
          (if ((processWallet x).1).isAbortedB then 1 else 0)) = 1 := by
      cases ho : (processWallet x).1 <;> rfl
    omega

/-- C5: for every account list and batch size `B ≥ 1`, the orchestrator
forms `⌈N/B⌉` consecutive batches whose concatenation is the original list,
every batch except possibly the last of size exactly `B` (none larger, none
empty); each wallet's recorded outcome is its own — an exception thrown
while processing one account is caught at that account's boundary, becomes
its `failed` outcome and never changes any sibling's outcome — and the
counters count exactly the completed and the exception-failed runs. -/
theorem c5_batching_and_isolation (envs : List SessionEnv) (b : Nat) (hb : 1 ≤ b) :
    (batches envs b).length = (envs.length + b - 1) / b ∧
    (batches envs b).flatten = envs ∧
    (∀ g ∈ (batches envs b).dropLast, g.length = b) ∧
    (∀ g ∈ batches envs b, g.length ≤ b ∧ g ≠ []) ∧
    (processWalletsInBatches envs b).2 = envs.map (fun e => (processWallet e).1) ∧
    (processWalletsInBatches envs b).1.success =
      envs.countP (fun e => ((processWallet e).1).isCompletedB) ∧
    (processWalletsInBatches envs b).1.failed =
      envs.countP (fun e => ((processWallet e).1).isFailedB) ∧
    (∀ e : SessionEnv, e.isWalletRegistered = Except.ok (some false) →
      e.checkInvite = Except.ok true → e.registerWallet = Except.error () →
      (processWallet e).1 = WalletOutcome.failed) := by
  have hb0 : b ≠ 0 := by omega
  have hspec := processWalletsInBatches_spec envs b hb0
  refine ⟨batches_length b hb0 envs, batches_flatten b hb0 envs,
    batches_dropLast_size b hb0 envs, batches_mem_size b hb0 envs, ?_, ?_, ?_, ?_⟩
  · rw [hspec]
  · rw [hspec]
  · rw [hspec]
  · intro e h1 h2 h3
    simp [processWallet, h1, h2, h3]

/-- C5 witness: two accounts in one batch of size 10; the first one's
registration call throws, it is counted `failed`, and the second account
still completes with its own outcome. -/
theorem c5_batching_witness :
    (batches [envRegisterThrows, envAllOk] 10).length = (2 + 10 - 1) / 10 ∧
    (processWalletsInBatches [envRegisterThrows, envAllOk] 10).2 =
      [envRegisterThrows, envAllOk].map (fun e => (processWallet e).1) ∧
    (processWallet envRegisterThrows).1 = WalletOutcome.failed ∧
    (processWallet envAllOk).1 = WalletOutcome.completed (some (JSVal.jnum 10)) := by
  have h := c5_batching_and_isolation [envRegisterThrows, envAllOk] 10 (by norm_num)
  refine ⟨?_, h.2.2.2.2.1, h.2.2.2.2.2.2.2 envRegisterThrows rfl rfl rfl, rfl⟩
  have h1 := h.1
  simpa using h1

/-- C1 counterexample: a single account whose referral code is invalid
aborts early through the bare `return` and reaches neither `stats.success++`
nor `stats.failed++`: after the whole run has settled, the counters read
`success = 0`, `failed = 0`, so `success + failed = 0 ≠ 1 = totalAccounts`,
and the aborted account is in particular not counted in `failed`. -/
theorem c1_counterexample :
    envInvalidInvite.checkInvite = Except.ok false ∧
    (processWalletsInBatches [envInvalidInvite] 10).1.success = 0 ∧
    (processWalletsInBatches [envInvalidInvite] 10).1.failed = 0 ∧
    (processWalletsInBatches [envInvalidInvite] 10).1.success +
        (processWalletsInBatches [envInvalidInvite] 10).1.failed ≠
      [envInvalidInvite].length := by
  have hspec := processWalletsInBatches_spec [envInvalidInvite] 10 (by norm_num)
  rw [hspec]
  refine ⟨rfl, rfl, rfl, by decide⟩

/-- C1 (amended): the counters satisfy `success + failed ≤ totalAccounts`,
and once every account's workflow has settled,
`success + failed + earlyAborts = totalAccounts`: an account whose workflow
aborts early because of an invalid referral code or a rejected registration
is counted in **neither** counter, so equality with `totalAccounts` holds
exactly when no account aborted early. -/
theorem c1_counters_skip_early_aborts (envs : List SessionEnv) (b : Nat) (hb : 1 ≤ b) :
    (processWalletsInBatches envs b).1.success + (processWalletsInBatches envs b).1.failed +
        envs.countP (fun e => ((processWallet e).1).isAbortedB) = envs.length ∧
    (processWalletsInBatches envs b).1.success + (processWalletsInBatches envs b).1.failed ≤
      envs.length ∧
    (∀ e : SessionEnv, e.isWalletRegistered = Except.ok (some false) →
      e.checkInvite = Except.ok false →
      (processWallet e).1 = WalletOutcome.abortedInvite ∧
      ((processWallet e).1).succDelta = 0 ∧ ((processWallet e).1).failDelta = 0) := by
  have hb0 : b ≠ 0 := by omega
  rw [processWalletsInBatches_spec envs b hb0]
  have hpart := outcome_partition envs
  refine ⟨by simpa using hpart, by simp; omega, ?_⟩
  intro e h1 h2
  have ho : (processWallet e).1 = WalletOutcome.abortedInvite := by
    simp [processWallet, h1, h2]
  exact ⟨ho, by rw [ho]; rfl, by rw [ho]; rfl⟩

/-- C1 witness: on the invalid-referral-code account the amended tally
holds: `0 + 0 + 1 = 1`. -/
theorem c1_counters_witness :
    (processWalletsInBatches [envInvalidInvite] 10).1.success +
        (processWalletsInBatches [envInvalidInvite] 10).1.failed +
        [envInvalidInvite].countP (fun e => ((processWallet e).1).isAbortedB) =
      [envInvalidInvite].length ∧
    (processWallet envInvalidInvite).1 = WalletOutcome.abortedInvite := by
  have h := c1_counters_skip_early_aborts [envInvalidInvite] 10 (by norm_num)
  exact ⟨h.1, (h.2.2 envInvalidInvite rfl rfl).1⟩

/-! ## Claims about the session operations -/

/-- Property access on a truthy value never throws and agrees with optional
chaining. -/
theorem getProp_of_truthy (v : JSVal) (k : String) (h : truthy v = true) :
    getProp v k = Except.ok (optChain v k) := by
  cases v <;> simp_all [truthy, getProp, optChain]

/-- If the reconnect tail completed with point value `p`, the point query
returned `p`. -/
theorem connectPhase_completed (e : SessionEnv) (p : Option JSVal)
    (h : (connectPhase e).1 = WalletOutcome.completed p) :
    e.checkNodePoints = Except.ok p := by
  rcases hc : e.connectNode with u | v <;>
    rcases hp : e.checkNodePoints with u2 | q <;>
    simp [connectPhase, hc, hp] at h
  rw [h]

/-- If the node tail completed with point value `p`, the point query
returned `p`. -/
theorem nodePhase_completed (e : SessionEnv) (p : Option JSVal)
    (h : (nodePhase e).1 = WalletOutcome.completed p) :
    e.checkNodePoints = Except.ok p := by
  rcases hn : e.checkNodeStatus with u | bs
  · simp [nodePhase, hn] at h
  · cases bs
    · exact connectPhase_completed e p (by simpa [nodePhase, hn] using h)
    · rcases hs : e.stopNode with u | s
      · simp [nodePhase, hn, hs] at h
      · exact connectPhase_completed e p (by simpa [nodePhase, hn, hs] using h)

/-- If the check-in tail completed with point value `p`, the point query
returned `p`. -/
theorem checkInPhase_completed (e : SessionEnv) (p : Option JSVal)
    (h : (checkInPhase e).1 = WalletOutcome.completed p) :
    e.checkNodePoints = Except.ok p := by
  rcases hd : e.dailyCheckIn with u | bd
  · simp [checkInPhase, hd] at h
  · exact nodePhase_completed e p (by simpa [checkInPhase, hd] using h)

/-- A run that completed with point value `p` stored exactly the point
query's returned value. -/
theorem processWallet_completed (e : SessionEnv) (p : Option JSVal)
    (h : (processWallet e).1 = WalletOutcome.completed p) :
    e.checkNodePoints = Except.ok p := by
  rcases hir : e.isWalletRegistered with u | v
  · simp [processWallet, hir] at h
  · rcases v with _ | bv
    · exact checkInPhase_completed e p (by simpa [processWallet, hir] using h)
    · cases bv
      · rcases hi : e.checkInvite with u | bi
        · simp [processWallet, hir, hi] at h
        · cases bi
          · simp [processWallet, hir, hi] at h
          · rcases hr : e.registerWallet with u | br
            · simp [processWallet, hir, hi, hr] at h
            · cases br
              · simp [processWallet, hir, hi, hr] at h
              · exact checkInPhase_completed e p
                  (by simpa [processWallet, hir, hi, hr] using h)
      · exact checkInPhase_completed e p (by simpa [processWallet, hir] using h)

/-- C2: evaluation at the failing input.  `checkNodeStatus` reads
`response.data.data.startTimestamp` with no optional chaining, so a
response with status 200 and truthy body `{}` — which has no `data` field —
makes the read throw a TypeError that escapes the operation.  The sibling
operations that guard the same nested access with `?.` return plain values
on the very same transport result. -/
theorem c2_check_node_status_throws :
    LayerEdgeConnection.checkNodeStatus (some ⟨200, JSVal.jobj []⟩) = Except.error () ∧
    LayerEdgeConnection.checkInvite (some ⟨200, JSVal.jobj []⟩) = Except.ok false ∧
    LayerEdgeConnection.checkNodePoints (some ⟨200, JSVal.jobj []⟩) =
      Except.ok (some (JSVal.jnum 0)) :=
  ⟨rfl, rfl, rfl⟩

/-- C9 counterexample: the claim's "returns null exactly when the transport
yielded no response" fails — a present response whose body is falsy (here
the empty-string body axios yields for an empty 200) also makes
`checkNodePoints` return `null`. -/
theorem c9_counterexample :
    LayerEdgeConnection.checkNodePoints (some ⟨200, JSVal.jstr ""⟩) = Except.ok none ∧
    some (⟨200, JSVal.jstr ""⟩ : Response) ≠ (none : Option Response) :=
  ⟨rfl, by simp⟩

/-- C9 (amended): with an object body, a missing points field yields `0`
(not an error) and a numeric points field yields that number; the query
returns `null` exactly when the transport yielded no response **or** the
response body is falsy; and a completed run stores the returned value —
including `null` — as the account record's point field. -/
theorem c9_points_extraction (resp : Option Response) (st : Nat)
    (fs : List (String × JSVal)) (n : Int) (e : SessionEnv) (p : Option JSVal) :
    (optChain (lookupField fs "data") "nodePoints" = JSVal.jundefined →
      LayerEdgeConnection.checkNodePoints (some ⟨st, JSVal.jobj fs⟩) =
        Except.ok (some (JSVal.jnum 0))) ∧
    (optChain (lookupField fs "data") "nodePoints" = JSVal.jnum n →
      LayerEdgeConnection.checkNodePoints (some ⟨st, JSVal.jobj fs⟩) =
        Except.ok (some (JSVal.jnum n))) ∧
    (LayerEdgeConnection.checkNodePoints resp = Except.ok none ↔
      (resp = none ∨ ∃ r, resp = some r ∧ truthy r.data = false)) ∧
    ((processWallet e).1 = WalletOutcome.completed p →
      e.checkNodePoints = Except.ok p) := by
  refine ⟨?_, ?_, ?_, processWallet_completed e p⟩
  · intro h
    simp [LayerEdgeConnection.checkNodePoints, getProp, truthy, h]
  · intro h
    by_cases hn : n = 0
    · subst hn
      simp [LayerEdgeConnection.checkNodePoints, getProp, truthy, h]
    · simp [LayerEdgeConnection.checkNodePoints, getProp, truthy, h, hn]
  · rcases resp with _ | r
    · simp [LayerEdgeConnection.checkNodePoints]
    · cases htr : truthy r.data
      · constructor
        · intro _
          exact Or.inr ⟨r, rfl, htr⟩
        · intro _
          simp [LayerEdgeConnection.checkNodePoints, htr]
      · constructor
        · intro hok
          exfalso
          revert hok
          simp [LayerEdgeConnection.checkNodePoints, htr,
            getProp_of_truthy r.data "data" htr]
        · intro hcon
          exfalso
          rcases hcon with hcon | ⟨r2, hr2, htr2⟩
          · cases hcon
          · rw [Option.some.inj hr2] at htr
            rw [htr] at htr2
            cases htr2
  
/-- C9 witness: a body with `data.nodePoints = 7` yields 7, a body `{}`
with the points field missing yields 0, and the completed all-ok run stored
its point query's value. -/
theorem c9_points_extraction_witness :
    LayerEdgeConnection.checkNodePoints
        (some ⟨200, JSVal.jobj [("data", JSVal.jobj [("nodePoints", JSVal.jnum 7)])]⟩) =
      Except.ok (some (JSVal.jnum 7)) ∧
    LayerEdgeConnection.checkNodePoints (some ⟨200, JSVal.jobj []⟩) =
      Except.ok (some (JSVal.jnum 0)) ∧
    envAllOk.checkNodePoints = Except.ok (some (JSVal.jnum 10)) := by
  have ha := c9_points_extraction (some ⟨200, JSVal.jobj []⟩) 200 [] 7 envAllOk
    (some (JSVal.jnum 10))
  have hb := c9_points_extraction none 200
    [("data", JSVal.jobj [("nodePoints", JSVal.jnum 7)])] 7 envAllOk (some (JSVal.jnum 10))
  exact ⟨hb.2.1 rfl, ha.1 rfl, ha.2.2.2 rfl⟩
